import Mathlib

/-!
Verification of the extraction-and-mesh-construction pipeline of the nyc
3D-buildings repository: a shallow embedding in Lean of the functions in
src/tools/extract-citygml.ts, src/scripts/extract.js and
src/tools/debug-duplicates.ts, together with proofs and refutations of the
behavioural claims made by the specification.

Numbers are modelled as rationals (the JavaScript sources use IEEE doubles;
none of the claims below concern rounding, only comparisons, sums and exact
arithmetic on small literals). Strings are Lean strings. Fallible steps are
modelled with Option / Except. Definitions come first, then the theorems.
-/

/-! ## Definitions -/

/-- Three-dimensional point (x, y, z) in source units. -/
abbrev V3 : Type := ℚ × ℚ × ℚ

/-- Two-dimensional point (x, y). -/
abbrev V2 : Type := ℚ × ℚ

/-- The grouping performed by the position-list parsing loop of parsePosList
(src/tools/extract-citygml.ts, lines 55-74) and posListToXYZ
(src/scripts/extract.js, lines 48-53), written as structural recursion over
the list of whitespace-separated tokens already converted to numbers: three
leading tokens become one (x, y, z) point; fewer than three remaining tokens
are discarded. -/
def chunk3 : List ℚ → List V3
  | x :: y :: z :: rest => (x, y, z) :: chunk3 rest
  | _ => []

/-- The indexed loop of parsePosList, with every array read made explicit as
an Option lookup so that an out-of-bounds read would surface as none: the
source guards each triple with the bound i + 2 < coords.length before reading
coords[i], coords[i+1], coords[i+2]. -/
def posLoop (coords : List ℚ) (i : Nat) : Option (List V3) :=
  if h : i + 2 < coords.length then
    match coords.get? i, coords.get? (i + 1), coords.get? (i + 2),
        posLoop coords (i + 3) with
    | some x, some y, some z, some rest => some ((x, y, z) :: rest)
    | _, _, _, _ => none
  else
    some []
termination_by coords.length - i
decreasing_by omega

/-- parsePosList / posListToXYZ: run the indexed loop from index 0. -/
def parsePosList (coords : List ℚ) : Option (List V3) := posLoop coords 0

/-- A gml:Polygon of the parsed CityGML document: the source only ever reads
polygon.exterior.LinearRing.posList, guarded by optional chaining, so one
optional token list suffices. -/
structure GMLPolygon where
  exteriorPosList : Option (List ℚ)
deriving Repr, DecidableEq

/-- A surface geometry (bldg:WallSurface / RoofSurface / GroundSurface
content). extractPolygons probes, in order: bldg:lod2MultiSurface (its
MultiSurface surfaceMember list), a direct gml:Polygon, and a direct
gml:MultiSurface surfaceMember list. The Array.isArray normalisations of the
source (one child versus an array of children) are absorbed by using lists
throughout. -/
structure GMLGeometry where
  lod2Members : Option (List GMLPolygon)
  polygon : Option GMLPolygon
  members : Option (List GMLPolygon)
deriving Repr, DecidableEq

/-- One bldg:boundedBy entry: at most one wall, roof and ground geometry. -/
structure GMLSurface where
  wall : Option GMLGeometry
  roof : Option GMLGeometry
  ground : Option GMLGeometry
deriving Repr, DecidableEq

/-- A bldg:Building element: optional gml:id attribute and optional
bldg:boundedBy list. -/
structure GMLBuilding where
  gmlId : Option String
  boundedBy : Option (List GMLSurface)
deriving Repr, DecidableEq

/-- Extracted building record (interface ExtractedBuilding of
src/tools/extract-citygml.ts). The walls, roof and ground fields are
initialised to empty arrays by the source, hence plain lists here. -/
structure ExtractedBuilding where
  id : String
  footprint : List V2
  height : ℚ
  walls : List (List V3)
  roof : List (List V3)
  ground : List (List V3)
deriving Repr, DecidableEq

/-- Exterior-ring extraction from one polygon: parse the posList when present
and keep the result only when nonempty (the source pushes only when
exterior.length > 0). parsePosList never fails (posLoop_eq_chunk3), so the
value is chunk3 of the tokens. -/
def polygonRing (p : GMLPolygon) : Option (List V3) :=
  match p.exteriorPosList with
  | some tokens =>
      let ext := chunk3 tokens
      if ext.length > 0 then some ext else none
  | none => none

/-- extractPolygons (src/tools/extract-citygml.ts, lines 76-124): collect
exterior rings from lod2 surface members, then a direct polygon, then direct
surface members, in that order. -/
def extractPolygons (g : GMLGeometry) : List (List V3) :=
  (g.lod2Members.getD []).filterMap polygonRing ++
    (match g.polygon with
     | some p => (polygonRing p).toList
     | none => []) ++
    (g.members.getD []).filterMap polygonRing

/-- The running-maximum update of the height scan: the source writes
if (point[2] > maxHeight) maxHeight = point[2]. -/
def maxStep (h z : ℚ) : ℚ := if z > h then z else h

/-- Height scan over the rings of one geometry, in ring order then point
order, threading the running maximum. -/
def scanRings (rings : List (List V3)) (h0 : ℚ) : ℚ :=
  rings.foldl (fun h ring => ring.foldl (fun h' p => maxStep h' p.2.2) h) h0

/-- Wall polygons contributed by one boundedBy entry (the
surface.WallSurface branch of the surface loop). -/
def surfWallPolys (s : GMLSurface) : List (List V3) :=
  match s.wall with
  | some g => extractPolygons g
  | none => []

/-- Roof polygons contributed by one boundedBy entry. -/
def surfRoofPolys (s : GMLSurface) : List (List V3) :=
  match s.roof with
  | some g => extractPolygons g
  | none => []

/-- Ground polygons contributed by one boundedBy entry. -/
def surfGroundPolys (s : GMLSurface) : List (List V3) :=
  match s.ground with
  | some g => extractPolygons g
  | none => []

/-- One iteration of the surface loop of extractBuildingGeometry: append the
wall polygons (scanning their z coordinates into the running maximum), append
the roof polygons (scanning likewise), and append the ground polygons (whose
z coordinates are NOT scanned by the source). The accumulator is
(walls, roof, ground, maxHeight). -/
def buildStep (acc : List (List V3) × List (List V3) × List (List V3) × ℚ)
    (s : GMLSurface) : List (List V3) × List (List V3) × List (List V3) × ℚ :=
  let (ws, rs, gs, h) := acc
  (ws ++ surfWallPolys s, rs ++ surfRoofPolys s, gs ++ surfGroundPolys s,
    scanRings (surfRoofPolys s) (scanRings (surfWallPolys s) h))

/-- extractBuildingGeometry (src/tools/extract-citygml.ts, lines 126-201).
The randSuffix argument models the Math.random draw used for the fallback id;
the source computes building_ followed by a random base-36 suffix. Walls and
roof rings feed the running maximum height (which starts at 0); ground rings
do not. The footprint is the first ground polygon projected to (x, y),
verbatim. -/
def extractBuildingGeometry (b : GMLBuilding) (randSuffix : String) :
    ExtractedBuilding :=
  let bid := b.gmlId.getD ("building_" ++ randSuffix)
  match b.boundedBy with
  | none => ⟨bid, [], 0, [], [], []⟩
  | some surfaces =>
      let acc := surfaces.foldl buildStep ([], [], [], 0)
      let fp : List V2 := match acc.2.2.1 with
        | g0 :: _ => g0.map (fun p => (p.1, p.2.1))
        | [] => []
      ⟨bid, fp, acc.2.2.2, acc.1, acc.2.1, acc.2.2.1⟩

/-- One entry of the normalised building-member list that the source loops
over (buildingsToProcess in extractFromCityGML): a falsy entry is skipped; an
object entry may carry a nested bldg:Building (a cityObjectMember wrapper) or
be treated as a building itself. -/
inductive MemberItem where
  | nullMember : MemberItem
  | node (inner : Option GMLBuilding) (self : GMLBuilding) : MemberItem
deriving Repr, DecidableEq

/-- The actualBuilding resolution of the member loop: unwrap a nested
bldg:Building when present, otherwise use the member itself. -/
def memberBuilding : MemberItem → Option GMLBuilding
  | .nullMember => none
  | .node inner self => some (inner.getD self)

/-- The member loop of extractFromCityGML (src/tools/extract-citygml.ts,
lines 257-272): skip falsy members, require bldg:boundedBy to be present,
extract, and keep buildings with a nonempty footprint. The rand argument
models the sequence of Math.random draws, indexed by member position. -/
def processMembersFrom : List MemberItem → (Nat → String) → Nat →
    List ExtractedBuilding
  | [], _, _ => []
  | m :: rest, rand, k =>
      let tail := processMembersFrom rest rand (k + 1)
      match memberBuilding m with
      | none => tail
      | some b =>
          match b.boundedBy with
          | none => tail
          | some _ =>
              let e := extractBuildingGeometry b (rand k)
              if e.footprint ≠ [] then e :: tail else tail

/-- extractFromCityGML (src/tools/extract-citygml.ts, lines 203-280). The
whole body after the parser construction sits in a try block whose catch logs
the error and returns the empty list. readResult models fs.readFileSync
(error = thrown exception), parseXml models parser.parse together with the
untyped cityModel / buildingMembers navigation of lines 225-255, which
consists solely of falsy-guarded lookups and array normalisation and cannot
throw, yielding the normalised member list. -/
def extractFromCityGML (readResult : Except String String)
    (parseXml : String → Except String (List MemberItem))
    (rand : Nat → String) : List ExtractedBuilding :=
  match readResult with
  | .error _ => []
  | .ok xml =>
      match parseXml xml with
      | .error _ => []
      | .ok members => processMembersFrom members rand 0

/-- The z coordinates of every point of every ring, in order. -/
def ringZs (rings : List (List V3)) : List ℚ :=
  (rings.map (fun ring => ring.map (fun p => p.2.2))).flatten

/-- The z coordinates scanned by the height loop: wall rings then roof rings,
surface by surface, in loop order. Ground rings never enter the scan. -/
def surfZs (surfaces : List GMLSurface) : List ℚ :=
  (surfaces.map
    (fun s => ringZs (surfWallPolys s) ++ ringZs (surfRoofPolys s))).flatten

/-- The z coordinates of the wall and roof rings of an extracted building (the
rings whose points the height scan of the source visits). -/
def wallRoofZs (e : ExtractedBuilding) : List ℚ :=
  ringZs (e.walls ++ e.roof)

/-- Feet-to-meters factor, as defined in src/scripts/extract.js line 33. -/
def FT_TO_M : ℚ := 3048 / 10000

/-- Binary maximum on rationals, written out so that it evaluates by kernel
reduction. -/
def qmax (a b : ℚ) : ℚ := if a ≤ b then b else a

/-- Binary minimum on rationals, written out so that it evaluates by kernel
reduction. -/
def qmin (a b : ℚ) : ℚ := if a ≤ b then a else b

/-- Follows the words of the spec (section 4.2), for comparison with the
code: scan every ring of every fragment in the group for min and max z;
height equals (max minus min) converted to meters, clamped to be
non-negative. -/
def specGroupHeight (rings : List (List V3)) : ℚ :=
  match ringZs rings with
  | [] => 0
  | z0 :: rest => qmax 0 ((rest.foldl qmax z0 - rest.foldl qmin z0) * FT_TO_M)

/-- Geometry carrying one direct gml:Polygon with the given posList tokens. -/
def polyGeom (tokens : List ℚ) : GMLGeometry :=
  ⟨none, some ⟨some tokens⟩, none⟩

/-- Ground ring of building_001 of the repository test fixture
(src/tools/_tests/extract-citygml.test.ts): a closed square at z = 0. -/
def groundTokens001 : List ℚ :=
  [0, 0, 0, 10, 0, 0, 10, 10, 0, 0, 10, 0, 0, 0, 0]

/-- Wall ring of building_001 of the repository test fixture: z up to 20. -/
def wallTokens001 : List ℚ :=
  [0, 0, 0, 0, 0, 20, 0, 10, 20, 0, 10, 0, 0, 0, 0]

/-- Roof ring of building_001 of the repository test fixture: z = 20. -/
def roofTokens001 : List ℚ :=
  [0, 0, 20, 10, 0, 20, 10, 10, 20, 0, 10, 20, 0, 0, 20]

/-- building_001 of the repository test fixture: one boundedBy element whose
object carries the ground, wall and roof surfaces together (which is how the
XML parser presents the fixture to the source). -/
def testBuilding1 : GMLBuilding :=
  ⟨some "building_001",
   some [⟨some (polyGeom wallTokens001), some (polyGeom roofTokens001),
          some (polyGeom groundTokens001)⟩]⟩

/-- An elevated building: closed ground square at z = 10 and roof square at
z = 25, so that minimum z is 10 and maximum z is 25 across all rings. -/
def elevatedBuilding : GMLBuilding :=
  ⟨some "bldg_elevated",
   some [⟨none, some (polyGeom
            [20, 20, 25, 30, 20, 25, 30, 30, 25, 20, 30, 25, 20, 20, 25]),
          some (polyGeom
            [20, 20, 10, 30, 20, 10, 30, 30, 10, 20, 30, 10, 20, 20, 10])⟩]⟩

/-- A building with no gml:id attribute (so the fallback id path is taken)
and a valid ground surface (so it is emitted). -/
def noIdBuilding : GMLBuilding :=
  ⟨none, some [⟨none, none, some (polyGeom groundTokens001)⟩]⟩

/-- Draw sequence that is injective by construction: n letters a. -/
def repChar (n : Nat) : String := String.mk (List.replicate n 'a')

/-- Triangulated mesh: flat vertex-position list and flat index buffer (the
MeshBuffer of spec section 3, with positions grouped into (x, y, z)
triples). -/
structure MeshBuffer where
  positions : List V3
  indices : List Nat
deriving Repr, DecidableEq

/-- The Building record emitted by the extract.js pipeline (the record shape
also read back by src/tools/debug-duplicates.ts): id, reprojected 2D
footprint, height in meters, optional mesh. -/
structure Building where
  id : String
  footprint : List V2
  heightM : ℚ
  mesh : Option MeshBuffer
deriving Repr, DecidableEq

/-- Modelled from the spec: one step of the emission-time footprint
deduplication inside processGMLSync of src/scripts/extract.js, whose body is
elided in the source file (the line reads: parse, build footprints, mesh,
same as before). Reconstructed from spec section 4.2 and the code snippet
quoted in the repository (footprintKey = JSON.stringify(mainFootprint);
skip when footprintToBuilding already has the key, logging the rejected id
and the surviving id; otherwise emit and record the key). The key map is
carried as the list of already-emitted buildings, looked up by exact
footprint equality (JSON serialization is injective on numeric point
arrays); the log collects (rejected id, surviving id) pairs. -/
def dedupStep (acc : List Building × List (String × String)) (b : Building) :
    List Building × List (String × String) :=
  match acc.1.find? (fun s => decide (s.footprint = b.footprint)) with
  | some surv => (acc.1, acc.2 ++ [(b.id, surv.id)])
  | none => (acc.1 ++ [b], acc.2)

/-- Modelled from the spec: the emission-time deduplication pass over the
building stream, in document order (see dedupStep). Returns the emitted
buildings and the duplicate log. -/
def dedupBuildings (bs : List Building) :
    List Building × List (String × String) :=
  bs.foldl dedupStep ([], [])

/-- A first building with the unit-square footprint. -/
def bldgA : Building := ⟨"b_1", [(0, 0), (1, 0), (1, 1), (0, 1)], 10, none⟩

/-- A second building with the same footprint but a different id. -/
def bldgB : Building := ⟨"b_2", [(0, 0), (1, 0), (1, 1), (0, 1)], 12, none⟩

/-- Axis-aligned bounding box as the 4-tuple (minX, minY, maxX, maxY); the
running minima start at plus infinity and the running maxima at minus
infinity, modelled by WithTop / WithBot. -/
abbrev BBox : Type := WithTop ℚ × WithTop ℚ × WithBot ℚ × WithBot ℚ

/-- bbox2D (src/scripts/extract.js lines 61-64): one pass over the footprint
updating minX, minY, maxX, maxY by strict comparison. -/
def bbox2D (coords : List V2) : BBox :=
  coords.foldl
    (fun acc p =>
      let (mnX, mnY, mxX, mxY) := acc
      (if (p.1 : WithTop ℚ) < mnX then (p.1 : WithTop ℚ) else mnX,
       if (p.2 : WithTop ℚ) < mnY then (p.2 : WithTop ℚ) else mnY,
       if mxX < (p.1 : WithBot ℚ) then (p.1 : WithBot ℚ) else mxX,
       if mxY < (p.2 : WithBot ℚ) then (p.2 : WithBot ℚ) else mxY))
    (⊤, ⊤, ⊥, ⊥)

/-- The flatbush index state: fixed capacity, boxes added so far, sealed
flag. -/
structure Flatbush where
  numItems : Nat
  boxes : List BBox
  finished : Bool

/-- new Flatbush(numItems): the library rejects a nonpositive item count. -/
def flatbushNew (n : Nat) : Option Flatbush :=
  if n = 0 then none else some ⟨n, [], false⟩

/-- index.add(minX, minY, maxX, maxY): appends one box. -/
def flatbushAdd (f : Flatbush) (box : BBox) : Flatbush :=
  { f with boxes := f.boxes ++ [box] }

/-- index.finish(): seals the index; the library requires exactly numItems
boxes to have been added. -/
def flatbushFinish (f : Flatbush) : Option Flatbush :=
  if f.boxes.length = f.numItems then some { f with finished := true }
  else none

/-- writeFlatbushIndex (src/scripts/extract.js lines 86-95): construct the
index with capacity buildings.length, add one footprint box per building in
list order, finish, and serialize the ids in the same order. -/
def writeFlatbushIndex (bs : List Building) :
    Option (Flatbush × List String) :=
  match flatbushNew bs.length with
  | none => none
  | some f0 =>
      let f1 := bs.foldl (fun f b => flatbushAdd f (bbox2D b.footprint)) f0
      match flatbushFinish f1 with
      | none => none
      | some fin => some (fin, bs.map (fun b => b.id))

/-- Modelled from the spec: the top-cap triangulation of the extruded prism.
The body of extrudeFootprint in src/scripts/extract.js (line 59) is elided in
the source file (the line reads: same as before); spec section 4.4 massing
mode prescribes triangulating the 2D footprint once, which on a simple
n-gon yields n - 2 triangles, here as a fan over the upper ring (vertices
n .. 2n - 1) in original winding. -/
def topCapTriangles (n : Nat) : List (Nat × Nat × Nat) :=
  (List.range (n - 2)).map (fun i => (n, n + i + 1, n + i + 2))

/-- Modelled from the spec: the bottom cap of the extruded prism, the same
n - 2 fan triangles over the lower ring (vertices 0 .. n - 1) with reversed
winding (spec section 4.4). -/
def bottomCapTriangles (n : Nat) : List (Nat × Nat × Nat) :=
  (List.range (n - 2)).map (fun i => (0, i + 2, i + 1))

/-- Modelled from the spec: the side wall of the extruded prism, a quad per
footprint edge split into two triangles (spec section 4.4), connecting lower
ring vertex i, its successor j = (i + 1) mod n, and the upper ring copies
n + i, n + j. -/
def sideTriangles (n : Nat) : List (Nat × Nat × Nat) :=
  ((List.range n).map (fun i =>
    [(i, (i + 1) % n, n + i),
     ((i + 1) % n, n + (i + 1) % n, n + i)])).flatten

/-- Modelled from the spec: extrudeFootprint (src/scripts/extract.js line 59,
body elided in the source file), from spec section 4.4 massing mode:
duplicate the footprint ring at height 0 and at the target height, then emit
side quads (two triangles per edge), the top cap in original winding and the
bottom cap in reversed winding. Returns the vertex list and the triangle
list. -/
def extrudeFootprint (fp : List V2) (h : ℚ) :
    List V3 × List (Nat × Nat × Nat) :=
  (fp.map (fun p => (p.1, p.2, (0 : ℚ))) ++ fp.map (fun p => (p.1, p.2, h)),
   sideTriangles fp.length ++ topCapTriangles fp.length ++
     bottomCapTriangles fp.length)

/-- Outcome of one driver run: the process exit code, how many buildings the
run extracted in total, and whether the spatial index (and the artifacts
after it) got written. -/
structure RunOutcome where
  exitCode : Nat
  totalBuildings : Nat
  wroteIndex : Bool
deriving Repr, DecidableEq

/-- The main driver of src/scripts/extract.js (lines 114-137): list the .gml
files; when there are none, log the error and exit with code 1. Otherwise
process every file in order - a file yielding zero buildings merely logs +0
and the loop continues - and concatenate all per-file building lists. The
driver then writes footprints.geojson and calls writeFlatbushIndex: with a
zero building total, new Flatbush(0) throws (see flatbushNew), the unhandled
rejection of the async wrapper terminates node with a non-zero exit code
(modelled as 1) and neither the index, the id array nor the GLB is written;
with at least one building the remaining artifacts are written and the
script runs to completion, exiting with code 0. extractOf models
processGMLSync per file. -/
def extractJsMain (files : List String)
    (extractOf : String → List Building) : RunOutcome :=
  if files.isEmpty then ⟨1, 0, false⟩
  else
    match writeFlatbushIndex ((files.map extractOf).flatten) with
    | none => ⟨1, ((files.map extractOf).flatten).length, false⟩
    | some _ => ⟨0, ((files.map extractOf).flatten).length, true⟩

/-- Per-file extractor for the soft per-file scenario: the first file of the
batch yields nothing, the file b.gml yields one building. -/
def softExtractOf : String → List Building :=
  fun f => if f = "b.gml" then [bldgA] else []

/-- Componentwise difference, point minus center (the centering loop of the
container writer). -/
def vsub (p c : V3) : V3 := (p.1 - c.1, p.2.1 - c.2.1, p.2.2 - c.2.2)

/-- Componentwise sum, translation plus stored position. -/
def vadd (c p : V3) : V3 := (c.1 + p.1, c.2.1 + p.2.1, c.2.2 + p.2.2)

/-- The centroid of a position buffer: arithmetic mean of each coordinate
over the vertex count (the buildingCenters loop quoted in
src/unnamed/part_002). -/
def centroid (ps : List V3) : V3 :=
  ((ps.map (fun p => p.1)).sum / ps.length,
   (ps.map (fun p => p.2.1)).sum / ps.length,
   (ps.map (fun p => p.2.2)).sum / ps.length)

/-- The buildingsWithMeshes filter of the container writer: buildings lacking
mesh data are dropped before any node or buffer is created (the writeGLB
loop of src/scripts/extract.js line 100 skips them with continue). -/
def buildingsWithMeshes (bs : List Building) : List (Building × MeshBuffer) :=
  bs.filterMap (fun b => b.mesh.map (fun m => (b, m)))

/-- A container node: the mesh it references (by position) and its
translation. -/
structure GLBNode where
  meshIndex : Nat
  translation : V3
deriving Repr, DecidableEq

/-- Modelled from the spec: the corrected writeGLB node construction. The
complete corrected container writer is present in the repository only as the
code quoted in src/unnamed/part_002 (and as the glTF-transform variant of
src/scripts/extract.js lines 96-111, which performs no recentering); spec
section 4.6 and the quoted code prescribe: per building with a mesh, compute
the centroid of the position buffer, re-express every position relative to
it, and record the centroid as the translation of node k referencing mesh k.
Returns the node list and the list of centered position buffers, in building
order. -/
def writeGLBNodes (bs : List Building) : List GLBNode × List (List V3) :=
  let ws := buildingsWithMeshes bs
  (ws.enum.map (fun ie => ⟨ie.1, centroid ie.2.2.positions⟩),
   ws.map (fun bm =>
     bm.2.positions.map (fun p => vsub p (centroid bm.2.positions))))

/-- A triangle mesh used by the container-writer witness. -/
def meshM : MeshBuffer := ⟨[(0, 0, 0), (2, 0, 0), (0, 2, 0)], [0, 1, 2]⟩

/-- A building carrying meshM. -/
def bldgM : Building := ⟨"m_1", [(0, 0), (2, 0), (0, 2)], 6, some meshM⟩

/-- A building with no mesh. -/
def bldgN : Building := ⟨"m_2", [(5, 5), (6, 5), (6, 6)], 3, none⟩

/-! ## Theorems -/

theorem chunk3_length : ∀ l : List ℚ, (chunk3 l).length = l.length / 3
  | [] => by simp [chunk3]
  | [_] => by simp [chunk3]
  | [_, _] => by simp [chunk3]
  | _ :: _ :: _ :: rest => by
      have ih := chunk3_length rest
      simp only [chunk3, List.length_cons, ih]
      omega

theorem chunk3_take : ∀ l : List ℚ,
    chunk3 (l.take (3 * (l.length / 3))) = chunk3 l
  | [] => by simp [chunk3]
  | [x] => by simp [chunk3]
  | [x, y] => by simp [chunk3]
  | x :: y :: z :: rest => by
      have ih := chunk3_take rest
      have harith : 3 * ((rest.length + 3) / 3) = 3 * (rest.length / 3) + 3 := by
        omega
      simp only [List.length_cons]
      have hlen : rest.length + 1 + 1 + 1 = rest.length + 3 := by omega
      rw [hlen, harith]
      simp only [List.take_succ_cons, chunk3, ih]

theorem posLoop_eq_chunk3 (coords : List ℚ) (i : Nat) :
    posLoop coords i = some (chunk3 (coords.drop i)) := by
  rw [posLoop]
  by_cases h : i + 2 < coords.length
  · have ih := posLoop_eq_chunk3 coords (i + 3)
    have h0 : i < coords.length := by omega
    have h1 : i + 1 < coords.length := by omega
    have hd : coords.drop i = coords[i] :: coords[i+1] :: coords[i+2] ::
        coords.drop (i + 3) := by
      rw [List.drop_eq_getElem_cons h0, List.drop_eq_getElem_cons h1,
        List.drop_eq_getElem_cons h]
    simp only [dif_pos h, List.get?_eq_getElem?, List.getElem?_eq_getElem h0,
      List.getElem?_eq_getElem h1, List.getElem?_eq_getElem h, ih, hd, chunk3]
  · have hle : coords.length ≤ i + 2 := by omega
    have hlen : (coords.drop i).length ≤ 2 := by
      simp only [List.length_drop]
      omega
    simp only [dif_neg h]
    match e : coords.drop i, hlen with
    | [], _ => simp [chunk3]
    | [a], _ => simp [chunk3]
    | [a, b], _ => simp [chunk3]
termination_by coords.length - i
decreasing_by omega

/-- C5. For every position list, parsing never errors and returns exactly
floor(n / 3) points, where n is the number of tokens; tokens beyond the last
full triple are silently discarded (parsing the truncated list gives the same
result). -/
theorem parsePosList_floor_and_truncates (coords : List ℚ) :
    ∃ pts : List V3,
      parsePosList coords = some pts ∧
      pts.length = coords.length / 3 ∧
      parsePosList (coords.take (3 * (coords.length / 3))) = some pts := by
  refine ⟨chunk3 coords, ?_, chunk3_length coords, ?_⟩
  · rw [parsePosList, posLoop_eq_chunk3]
    simp
  · rw [parsePosList, posLoop_eq_chunk3]
    simp [chunk3_take]

theorem scanRings_eq_foldl (rings : List (List V3)) (h0 : ℚ) :
    scanRings rings h0 = List.foldl maxStep h0 (ringZs rings) := by
  simp [scanRings, ringZs, List.foldl_flatten, List.foldl_map]

theorem maxfold_spec (l : List ℚ) (h0 : ℚ) :
    h0 ≤ l.foldl maxStep h0 ∧
    (∀ z ∈ l, z ≤ l.foldl maxStep h0) ∧
    (l.foldl maxStep h0 = h0 ∨ l.foldl maxStep h0 ∈ l) := by
  induction l generalizing h0 with
  | nil => simp
  | cons z l ih =>
      obtain ⟨ih1, ih2, ih3⟩ := ih (maxStep h0 z)
      have hz : z ≤ maxStep h0 z := by
        by_cases hc : z > h0
        · simp [maxStep, hc]
        · simp only [maxStep, if_neg hc]
          exact le_of_not_lt hc
      have hh : h0 ≤ maxStep h0 z := by
        by_cases hc : z > h0
        · simp only [maxStep, if_pos hc]
          exact le_of_lt hc
        · simp [maxStep, hc]
      simp only [List.foldl_cons]
      refine ⟨le_trans hh ih1, ?_, ?_⟩
      · intro z' hz'
        rcases List.mem_cons.mp hz' with h | h
        · subst h
          exact le_trans hz ih1
        · exact ih2 z' h
      · rcases ih3 with h | h
        · rw [h]
          by_cases hc : z > h0
          · simp only [maxStep, if_pos hc]
            exact Or.inr (List.mem_cons_self _ _)
          · left
            simp [maxStep, hc]
        · exact Or.inr (List.mem_cons_of_mem _ h)

theorem buildStep_fold (surfaces : List GMLSurface)
    (ws rs gs : List (List V3)) (h : ℚ) :
    List.foldl buildStep (ws, rs, gs, h) surfaces =
      (ws ++ (surfaces.map surfWallPolys).flatten,
       rs ++ (surfaces.map surfRoofPolys).flatten,
       gs ++ (surfaces.map surfGroundPolys).flatten,
       List.foldl maxStep h (surfZs surfaces)) := by
  induction surfaces generalizing ws rs gs h with
  | nil => simp [surfZs]
  | cons s rest ih =>
      rw [List.foldl_cons, buildStep, ih]
      simp [surfZs, scanRings_eq_foldl, List.foldl_append, List.append_assoc]

theorem extract_id (b : GMLBuilding) (r : String) :
    (extractBuildingGeometry b r).id = b.gmlId.getD ("building_" ++ r) := by
  cases hb : b.boundedBy <;> simp [extractBuildingGeometry, hb]

theorem extract_walls (b : GMLBuilding) (r : String)
    (surfaces : List GMLSurface) (hb : b.boundedBy = some surfaces) :
    (extractBuildingGeometry b r).walls =
      (surfaces.map surfWallPolys).flatten := by
  simp [extractBuildingGeometry, hb, buildStep_fold]

theorem extract_roof (b : GMLBuilding) (r : String)
    (surfaces : List GMLSurface) (hb : b.boundedBy = some surfaces) :
    (extractBuildingGeometry b r).roof =
      (surfaces.map surfRoofPolys).flatten := by
  simp [extractBuildingGeometry, hb, buildStep_fold]

theorem extract_ground (b : GMLBuilding) (r : String)
    (surfaces : List GMLSurface) (hb : b.boundedBy = some surfaces) :
    (extractBuildingGeometry b r).ground =
      (surfaces.map surfGroundPolys).flatten := by
  simp [extractBuildingGeometry, hb, buildStep_fold]

theorem extract_height (b : GMLBuilding) (r : String)
    (surfaces : List GMLSurface) (hb : b.boundedBy = some surfaces) :
    (extractBuildingGeometry b r).height =
      List.foldl maxStep 0 (surfZs surfaces) := by
  simp [extractBuildingGeometry, hb, buildStep_fold]

theorem extract_footprint (b : GMLBuilding) (r : String) :
    (extractBuildingGeometry b r).footprint =
      match (extractBuildingGeometry b r).ground with
      | g0 :: _ => g0.map (fun p => (p.1, p.2.1))
      | [] => [] := by
  cases hb : b.boundedBy <;> simp [extractBuildingGeometry, hb]

theorem ringZs_append (a b : List (List V3)) :
    ringZs (a ++ b) = ringZs a ++ ringZs b := by
  simp [ringZs]

theorem mem_surfZs (surfaces : List GMLSurface) (z : ℚ) :
    z ∈ surfZs surfaces ↔
      z ∈ ringZs ((surfaces.map surfWallPolys).flatten) ∨
      z ∈ ringZs ((surfaces.map surfRoofPolys).flatten) := by
  induction surfaces with
  | nil => simp [surfZs, ringZs]
  | cons s rest ih =>
      simp only [surfZs, List.map_cons, List.flatten_cons, List.mem_append,
        ringZs_append] at *
      tauto

theorem mem_wallRoofZs (b : GMLBuilding) (r : String)
    (surfaces : List GMLSurface) (hb : b.boundedBy = some surfaces) (z : ℚ) :
    z ∈ wallRoofZs (extractBuildingGeometry b r) ↔ z ∈ surfZs surfaces := by
  rw [wallRoofZs, extract_walls b r surfaces hb, extract_roof b r surfaces hb,
    ringZs_append, mem_surfZs]
  simp [List.mem_append]

/-- C2 counterexample: for the elevated building the code emits height 25
(the raw maximum z of wall and roof points, with an implicit floor of 0),
whereas the claimed formula - (max z minus min z over every ring of every
fragment) converted to meters and clamped - gives (25 - 10) * 0.3048 = 4.572.
The two disagree, refuting the claim on the code. -/
theorem c2_height_counterexample :
    (extractBuildingGeometry elevatedBuilding "r").height = 25 ∧
    specGroupHeight ((extractBuildingGeometry elevatedBuilding "r").walls ++
        (extractBuildingGeometry elevatedBuilding "r").roof ++
        (extractBuildingGeometry elevatedBuilding "r").ground) = 4572 / 1000 ∧
    (extractBuildingGeometry elevatedBuilding "r").height ≠
      specGroupHeight ((extractBuildingGeometry elevatedBuilding "r").walls ++
        (extractBuildingGeometry elevatedBuilding "r").roof ++
        (extractBuildingGeometry elevatedBuilding "r").ground) := by
  have hw : (extractBuildingGeometry elevatedBuilding "r").walls = [] := by
    decide
  have hrf : (extractBuildingGeometry elevatedBuilding "r").roof =
      [[(20, 20, 25), (30, 20, 25), (30, 30, 25), (20, 30, 25),
        (20, 20, 25)]] := by decide
  have hg : (extractBuildingGeometry elevatedBuilding "r").ground =
      [[(20, 20, 10), (30, 20, 10), (30, 30, 10), (20, 30, 10),
        (20, 20, 10)]] := by decide
  have hh : (extractBuildingGeometry elevatedBuilding "r").height = 25 := by
    decide
  have hs : specGroupHeight
      ((extractBuildingGeometry elevatedBuilding "r").walls ++
        (extractBuildingGeometry elevatedBuilding "r").roof ++
        (extractBuildingGeometry elevatedBuilding "r").ground) = 4572 / 1000 := by
    rw [hw, hrf, hg]
    norm_num [specGroupHeight, ringZs, qmax, qmin, FT_TO_M]
  refine ⟨hh, hs, ?_⟩
  rw [hh, hs]
  norm_num

/-- C2 (amended). For every building, the emitted height is the running
maximum, started at 0, of the z coordinates of wall and roof ring points: it
is non-negative, it bounds every such z from above, and it is either 0 or one
of those z coordinates. Ground rings are not scanned, no minimum is
subtracted, and no unit conversion is applied. -/
theorem c2_height_is_clamped_max (b : GMLBuilding) (r : String) :
    0 ≤ (extractBuildingGeometry b r).height ∧
    (∀ z ∈ wallRoofZs (extractBuildingGeometry b r),
      z ≤ (extractBuildingGeometry b r).height) ∧
    ((extractBuildingGeometry b r).height = 0 ∨
      (extractBuildingGeometry b r).height ∈
        wallRoofZs (extractBuildingGeometry b r)) := by
  cases hb : b.boundedBy with
  | none =>
      refine ⟨by simp [extractBuildingGeometry, hb], ?_, ?_⟩
      · intro z hz
        simp [wallRoofZs, ringZs, extractBuildingGeometry, hb] at hz
      · left
        simp [extractBuildingGeometry, hb]
  | some surfaces =>
      obtain ⟨m1, m2, m3⟩ := maxfold_spec (surfZs surfaces) 0
      rw [extract_height b r surfaces hb]
      refine ⟨m1, ?_, ?_⟩
      · intro z hz
        exact m2 z ((mem_wallRoofZs b r surfaces hb z).mp hz)
      · rcases m3 with h | h
        · exact Or.inl h
        · exact Or.inr ((mem_wallRoofZs b r surfaces hb _).mpr h)

/-- Witness for the amended C2 theorem at the repository test fixture: the
wall z coordinate 20 is bounded by the emitted height of building_001. -/
theorem c2_height_is_clamped_max_witness :
    (20 : ℚ) ≤ (extractBuildingGeometry testBuilding1 "r").height :=
  (c2_height_is_clamped_max testBuilding1 "r").2.1 20 (by decide)

/-- Every building emitted by the member loop has a nonempty footprint (the
only footprint condition the source checks before emission). -/
theorem mem_processMembers :
    ∀ (ms : List MemberItem) (rand : Nat → String) (k : Nat)
      (e : ExtractedBuilding), e ∈ processMembersFrom ms rand k →
      e.footprint ≠ []
  | [], _, _, _ => by simp [processMembersFrom]
  | m :: rest, rand, k, e => by
      intro hmem
      have ih := mem_processMembers rest rand (k + 1) e
      simp only [processMembersFrom] at hmem
      cases hmb : memberBuilding m with
      | none =>
          simp only [hmb] at hmem
          exact ih hmem
      | some b =>
          simp only [hmb] at hmem
          cases hbb : b.boundedBy with
          | none =>
              simp only [hbb] at hmem
              exact ih hmem
          | some ss =>
              simp only [hbb] at hmem
              by_cases hfp : (extractBuildingGeometry b (rand k)).footprint ≠ []
              · rw [if_pos hfp] at hmem
                rcases List.mem_cons.mp hmem with h | h
                · rw [h]
                  exact hfp
                · exact ih h
              · rw [if_neg hfp] at hmem
                exact ih hmem

/-- C3 counterexample: building_001 of the repository test fixture is emitted
with the closed 5-point ground ring kept verbatim as its footprint - the
first and last footprint points coincide, contradicting the claim that
emitted footprints are open with no duplicated closing point (the repository
test itself asserts the 5-point closed footprint). -/
theorem c3_closing_point_counterexample :
    (processMembersFrom [MemberItem.node none testBuilding1]
        (fun _ => "r") 0).length = 1 ∧
    ∀ e ∈ processMembersFrom [MemberItem.node none testBuilding1]
        (fun _ => "r") 0,
      e.footprint.length = 5 ∧ e.footprint.head? = e.footprint.getLast? := by
  decide

/-- C3 (amended). The emitted footprint is the first extracted ground polygon
projected to (x, y), kept verbatim: no closing-point removal and no
minimum-point-count check is applied, so a closed source ring keeps its
duplicated closing point; the only condition enforced at emission is that the
footprint is nonempty. -/
theorem c3_footprint_verbatim (b : GMLBuilding) (r : String)
    (ms : List MemberItem) (rand : Nat → String) (k : Nat) :
    ((extractBuildingGeometry b r).footprint =
      match (extractBuildingGeometry b r).ground with
      | g0 :: _ => g0.map (fun p => (p.1, p.2.1))
      | [] => []) ∧
    ∀ e ∈ processMembersFrom ms rand k, e.footprint ≠ [] :=
  ⟨extract_footprint b r, fun e he => mem_processMembers ms rand k e he⟩

/-- Witness for the amended C3 theorem at the repository test fixture. -/
theorem c3_footprint_verbatim_witness :
    ((extractBuildingGeometry testBuilding1 "r").footprint =
      match (extractBuildingGeometry testBuilding1 "r").ground with
      | g0 :: _ => g0.map (fun p => (p.1, p.2.1))
      | [] => []) ∧
    (extractBuildingGeometry testBuilding1 "r").footprint ≠ [] :=
  ⟨(c3_footprint_verbatim testBuilding1 "r" [] (fun _ => "r") 0).1,
   (c3_footprint_verbatim testBuilding1 "r"
      [MemberItem.node none testBuilding1] (fun _ => "r") 0).2
      (extractBuildingGeometry testBuilding1 "r") (by decide)⟩

/-- C10. extractFromCityGML never propagates an exception: a read failure or
a parse failure is absorbed (the source logs it) and the empty building list
is returned, so a caller always receives a list for each file. -/
theorem extractFromCityGML_never_throws (readResult : Except String String)
    (parseXml : String → Except String (List MemberItem))
    (rand : Nat → String) :
    (∀ e, readResult = Except.error e →
      extractFromCityGML readResult parseXml rand = []) ∧
    (∀ xml e, readResult = Except.ok xml → parseXml xml = Except.error e →
      extractFromCityGML readResult parseXml rand = []) := by
  constructor
  · rintro e rfl
    rfl
  · rintro xml e rfl hp
    simp [extractFromCityGML, hp]

/-- Witness for C10: a failing read and a failing parse each yield the empty
list. -/
theorem extractFromCityGML_never_throws_witness :
    extractFromCityGML (Except.error "unreadable file")
      (fun _ => Except.ok []) (fun _ => "r") = [] ∧
    extractFromCityGML (Except.ok "xml text")
      (fun _ => Except.error "parse failure") (fun _ => "r") = [] :=
  ⟨(extractFromCityGML_never_throws (Except.error "unreadable file")
      (fun _ => Except.ok []) (fun _ => "r")).1 "unreadable file" rfl,
   (extractFromCityGML_never_throws (Except.ok "xml text")
      (fun _ => Except.error "parse failure") (fun _ => "r")).2
      "xml text" "parse failure" rfl rfl⟩

/-- C7 counterexample: when the two Math.random draws of a run coincide
(modelled by a constant draw sequence), two buildings lacking an explicit
identifier receive the same synthesized identifier, so synthesized
identifiers can collide within a run. -/
theorem c7_random_collision_counterexample :
    (processMembersFrom
        [MemberItem.node none noIdBuilding, MemberItem.node none noIdBuilding]
        (fun _ => "dup") 0).map (fun e => e.id) =
      ["building_dup", "building_dup"] ∧
    ¬ List.Pairwise (fun a b => a.id ≠ b.id)
      (processMembersFrom
        [MemberItem.node none noIdBuilding, MemberItem.node none noIdBuilding]
        (fun _ => "dup") 0) := by
  decide

theorem string_append_cancel (s t u : String) (h : s ++ t = s ++ u) : t = u := by
  have hd := congrArg String.data h
  simp only [String.data_append] at hd
  cases t with
  | mk td =>
      cases u with
      | mk ud =>
          exact congrArg String.mk (List.append_cancel_left hd)

/-- Every building emitted from members that all lack an explicit gml:id has
a synthesized identifier of the form building_ followed by the random draw of
its member position. -/
theorem processMembers_id_form :
    ∀ (ms : List MemberItem) (rand : Nat → String) (k : Nat),
      (∀ m ∈ ms, ∀ b, memberBuilding m = some b → b.gmlId = none) →
      ∀ e ∈ processMembersFrom ms rand k,
        ∃ j, k ≤ j ∧ e.id = "building_" ++ rand j
  | [], _, _, _ => by simp [processMembersFrom]
  | m :: rest, rand, k, hnoid => by
      intro e hmem
      have hnoid' : ∀ m ∈ rest, ∀ b, memberBuilding m = some b →
          b.gmlId = none :=
        fun m hm => hnoid m (List.mem_cons_of_mem _ hm)
      have ih := processMembers_id_form rest rand (k + 1) hnoid' e
      simp only [processMembersFrom] at hmem
      cases hmb : memberBuilding m with
      | none =>
          simp only [hmb] at hmem
          obtain ⟨j, hj, he⟩ := ih hmem
          exact ⟨j, by omega, he⟩
      | some b =>
          simp only [hmb] at hmem
          have hid : b.gmlId = none := hnoid m (List.mem_cons_self _ _) b hmb
          cases hbb : b.boundedBy with
          | none =>
              simp only [hbb] at hmem
              obtain ⟨j, hj, he⟩ := ih hmem
              exact ⟨j, by omega, he⟩
          | some ss =>
              simp only [hbb] at hmem
              by_cases hfp : (extractBuildingGeometry b (rand k)).footprint ≠ []
              · rw [if_pos hfp] at hmem
                rcases List.mem_cons.mp hmem with h | h
                · refine ⟨k, le_refl k, ?_⟩
                  rw [h, extract_id, hid]
                  rfl
                · obtain ⟨j, hj, he⟩ := ih h
                  exact ⟨j, by omega, he⟩
              · rw [if_neg hfp] at hmem
                obtain ⟨j, hj, he⟩ := ih hmem
                exact ⟨j, by omega, he⟩

/-- C7 (amended). Synthesized identifiers are building_ followed by the
Math.random draw of the member position; they are pairwise distinct exactly
when those draws are, which the code does not itself enforce: under an
injective draw sequence the emitted identifiers of a run of buildings that
all lack an explicit identifier are pairwise distinct. -/
theorem c7_synth_ids_distinct :
    ∀ (ms : List MemberItem) (rand : Nat → String) (k : Nat),
      (∀ i j, rand i = rand j → i = j) →
      (∀ m ∈ ms, ∀ b, memberBuilding m = some b → b.gmlId = none) →
      List.Pairwise (fun a b => a.id ≠ b.id) (processMembersFrom ms rand k)
  | [], _, _, _, _ => by simp [processMembersFrom]
  | m :: rest, rand, k, hinj, hnoid => by
      have hnoid' : ∀ m ∈ rest, ∀ b, memberBuilding m = some b →
          b.gmlId = none :=
        fun m hm => hnoid m (List.mem_cons_of_mem _ hm)
      have ih := c7_synth_ids_distinct rest rand (k + 1) hinj hnoid'
      simp only [processMembersFrom]
      cases hmb : memberBuilding m with
      | none => exact ih
      | some b =>
          simp only []
          have hid : b.gmlId = none := hnoid m (List.mem_cons_self _ _) b hmb
          cases hbb : b.boundedBy with
          | none => exact ih
          | some ss =>
              simp only []
              by_cases hfp : (extractBuildingGeometry b (rand k)).footprint ≠ []
              · rw [if_pos hfp]
                refine List.Pairwise.cons ?_ ih
                intro e he heq
                obtain ⟨j, hj, hej⟩ :=
                  processMembers_id_form rest rand (k + 1) hnoid' e he
                rw [extract_id, hid] at heq
                rw [hej] at heq
                have : ("building_" : String) ++ rand k =
                    "building_" ++ rand j := by
                  exact heq
                have hk := hinj k j (string_append_cancel _ _ _ this)
                omega
              · rw [if_neg hfp]
                exact ih

/-- Witness for the amended C7 theorem: under the injective draw sequence
repChar, two buildings lacking ids receive distinct identifiers. -/
theorem c7_synth_ids_distinct_witness :
    List.Pairwise (fun a b => a.id ≠ b.id)
      (processMembersFrom
        [MemberItem.node none noIdBuilding, MemberItem.node none noIdBuilding]
        repChar 0) :=
  c7_synth_ids_distinct
    [MemberItem.node none noIdBuilding, MemberItem.node none noIdBuilding]
    repChar 0
    (fun i j h => by
      have hlen := congrArg (fun s => s.data.length) h
      simpa [repChar] using hlen)
    (by
      intro m hm b hb
      have hm2 : m = MemberItem.node none noIdBuilding := by
        rcases List.mem_cons.mp hm with h | h
        · exact h
        · rcases List.mem_cons.mp h with h2 | h2
          · exact h2
          · simp at h2
      rw [hm2] at hb
      simp only [memberBuilding, Option.getD, Option.some.injEq] at hb
      rw [← hb]
      rfl)

theorem dedup_mono (bs : List Building)
    (acc : List Building × List (String × String)) :
    (∀ x ∈ acc.1, x ∈ (List.foldl dedupStep acc bs).1) ∧
    (∀ p ∈ acc.2, p ∈ (List.foldl dedupStep acc bs).2) := by
  induction bs generalizing acc with
  | nil => simp
  | cons b rest ih =>
      rw [List.foldl_cons]
      obtain ⟨ih1, ih2⟩ := ih (dedupStep acc b)
      constructor
      · intro x hx
        refine ih1 x ?_
        rw [dedupStep]
        cases acc.1.find? (fun s => decide (s.footprint = b.footprint)) with
        | none => exact List.mem_append_left _ hx
        | some surv => exact hx
      · intro p hp
        refine ih2 p ?_
        rw [dedupStep]
        cases acc.1.find? (fun s => decide (s.footprint = b.footprint)) with
        | none => exact hp
        | some surv => exact List.mem_append_left _ hp

theorem dedup_go (bs : List Building)
    (acc : List Building × List (String × String))
    (hacc : List.Pairwise (fun a c => a.footprint ≠ c.footprint) acc.1) :
    List.Pairwise (fun a c => a.footprint ≠ c.footprint)
      (List.foldl dedupStep acc bs).1 ∧
    ∀ b ∈ bs, b ∈ (List.foldl dedupStep acc bs).1 ∨
      ∃ sid, (b.id, sid) ∈ (List.foldl dedupStep acc bs).2 ∧
        ∃ surv ∈ (List.foldl dedupStep acc bs).1, surv.id = sid ∧
          surv.footprint = b.footprint := by
  induction bs generalizing acc with
  | nil => exact ⟨hacc, by simp⟩
  | cons b rest ih =>
      rw [List.foldl_cons]
      cases hf : acc.1.find? (fun s => decide (s.footprint = b.footprint)) with
      | some surv =>
          have hstep : dedupStep acc b = (acc.1, acc.2 ++ [(b.id, surv.id)]) := by
            rw [dedupStep, hf]
          have hsurv_mem : surv ∈ acc.1 := List.mem_of_find?_eq_some hf
          have hsurv_fp : surv.footprint = b.footprint := by
            have := List.find?_some hf
            simpa using this
          rw [hstep]
          obtain ⟨hp, hcov⟩ := ih (acc.1, acc.2 ++ [(b.id, surv.id)]) hacc
          refine ⟨hp, ?_⟩
          intro b' hb'
          rcases List.mem_cons.mp hb' with rfl | hb'
          · obtain ⟨m1, m2⟩ := dedup_mono rest (acc.1, acc.2 ++ [(b'.id, surv.id)])
            refine Or.inr ⟨surv.id, ?_, surv, m1 surv hsurv_mem, rfl, hsurv_fp⟩
            exact m2 (b'.id, surv.id) (List.mem_append_right _ (by simp))
          · exact hcov b' hb'
      | none =>
          have hstep : dedupStep acc b = (acc.1 ++ [b], acc.2) := by
            rw [dedupStep, hf]
          have hnew : ∀ s ∈ acc.1, s.footprint ≠ b.footprint := by
            intro s hs
            have := List.find?_eq_none.mp hf s hs
            simpa using this
          have hacc' : List.Pairwise (fun a c => a.footprint ≠ c.footprint)
              (acc.1 ++ [b]) := by
            rw [List.pairwise_append]
            exact ⟨hacc, List.pairwise_singleton _ _,
              fun a ha c hc => by
                rcases List.mem_singleton.mp hc with rfl
                exact hnew a ha⟩
          rw [hstep]
          obtain ⟨hp, hcov⟩ := ih (acc.1 ++ [b], acc.2) hacc'
          refine ⟨hp, ?_⟩
          intro b' hb'
          rcases List.mem_cons.mp hb' with rfl | hb'
          · obtain ⟨m1, m2⟩ := dedup_mono rest (acc.1 ++ [b'], acc.2)
            exact Or.inl (m1 b' (List.mem_append_right _ (by simp)))
          · exact hcov b' hb'

/-- C1. The deduplicated emission stream has pairwise distinct serialized
footprints, and every input building is either emitted or dropped with a log
entry naming its own id and the id of an emitted building with the identical
footprint (the survivor). -/
theorem dedup_emits_unique_footprints (bs : List Building) :
    List.Pairwise (fun a c => a.footprint ≠ c.footprint)
      (dedupBuildings bs).1 ∧
    ∀ b ∈ bs, b ∈ (dedupBuildings bs).1 ∨
      ∃ sid, (b.id, sid) ∈ (dedupBuildings bs).2 ∧
        ∃ surv ∈ (dedupBuildings bs).1, surv.id = sid ∧
          surv.footprint = b.footprint :=
  dedup_go bs ([], []) (List.Pairwise.nil)

/-- Witness for C1 at the spec scenario of two identical unit-square
footprints: the duplicate is either emitted or logged against a surviving
building with the same footprint. -/
theorem dedup_emits_unique_footprints_witness :
    bldgB ∈ (dedupBuildings [bldgA, bldgB]).1 ∨
    ∃ sid, (bldgB.id, sid) ∈ (dedupBuildings [bldgA, bldgB]).2 ∧
      ∃ surv ∈ (dedupBuildings [bldgA, bldgB]).1, surv.id = sid ∧
        surv.footprint = bldgB.footprint :=
  (dedup_emits_unique_footprints [bldgA, bldgB]).2 bldgB (by decide)

theorem fold_add_boxes (bs : List Building) (f : Flatbush) :
    bs.foldl (fun f b => flatbushAdd f (bbox2D b.footprint)) f =
      ⟨f.numItems, f.boxes ++ bs.map (fun b => bbox2D b.footprint),
       f.finished⟩ := by
  induction bs generalizing f with
  | nil => simp
  | cons b rest ih =>
      rw [List.foldl_cons, ih]
      simp [flatbushAdd]

/-- C4. For every nonempty building list, the index writer succeeds: the
index is built with capacity exactly the building count, holds one footprint
box per building in list order, is sealed, and the id array has the same
length with ids[k] naming the building whose box sits at position k. -/
theorem flatbush_index_in_lockstep (bs : List Building)
    (hbs : 0 < bs.length) :
    ∃ fin ids, writeFlatbushIndex bs = some (fin, ids) ∧
      fin.numItems = bs.length ∧
      fin.finished = true ∧
      fin.boxes.length = bs.length ∧
      ids.length = bs.length ∧
      ∀ k (hk : k < bs.length),
        fin.boxes.get? k = some (bbox2D (bs.get ⟨k, hk⟩).footprint) ∧
        ids.get? k = some (bs.get ⟨k, hk⟩).id := by
  have hnz : bs.length ≠ 0 := by omega
  refine ⟨⟨bs.length, bs.map (fun b => bbox2D b.footprint), true⟩,
    bs.map (fun b => b.id), ?_, rfl, rfl, by simp, by simp, ?_⟩
  · rw [writeFlatbushIndex, flatbushNew, if_neg hnz]
    simp only [fold_add_boxes, List.nil_append]
    rw [flatbushFinish]
    simp
  · intro k hk
    constructor
    · rw [List.get?_map, List.get?_eq_get hk]
      rfl
    · rw [List.get?_map, List.get?_eq_get hk]
      rfl

/-- Witness for C4 with a two-building list: the writer succeeds and position
1 of the id array names the building whose box was added second. -/
theorem flatbush_index_in_lockstep_witness :
    ∃ fin ids, writeFlatbushIndex [bldgA, bldgB] = some (fin, ids) ∧
      fin.numItems = 2 ∧
      fin.finished = true ∧
      fin.boxes.length = 2 ∧
      ids.length = 2 ∧
      ∀ k (hk : k < 2),
        fin.boxes.get? k =
          some (bbox2D (List.get [bldgA, bldgB] ⟨k, hk⟩).footprint) ∧
        ids.get? k = some (List.get [bldgA, bldgB] ⟨k, hk⟩).id :=
  flatbush_index_in_lockstep [bldgA, bldgB] (by decide)

theorem sideTriangles_length (n : Nat) :
    (sideTriangles n).length = 2 * n := by
  have hconst : (List.length (α := Nat × Nat × Nat) ∘ fun i =>
      [(i, (i + 1) % n, n + i),
       ((i + 1) % n, n + (i + 1) % n, n + i)]) = fun _ => 2 := by
    funext i
    rfl
  simp only [sideTriangles, List.length_flatten, List.map_map, hconst]
  rw [List.map_const', List.sum_const_nat, List.length_range]
  omega

/-- C6. For every footprint with at least 3 points extruded to any height,
the prism mesh duplicates the vertex ring at height 0 and at the target
height (2n vertices), and contains exactly 2n side triangles, n - 2 top-cap
triangles and n - 2 bottom-cap triangles, for a total of 4n - 4. -/
theorem extrude_prism_counts (fp : List V2) (h : ℚ)
    (hn : 3 ≤ fp.length) :
    (extrudeFootprint fp h).1 =
      fp.map (fun p => (p.1, p.2, (0 : ℚ))) ++
        fp.map (fun p => (p.1, p.2, h)) ∧
    (extrudeFootprint fp h).1.length = 2 * fp.length ∧
    (sideTriangles fp.length).length = 2 * fp.length ∧
    (topCapTriangles fp.length).length = fp.length - 2 ∧
    (bottomCapTriangles fp.length).length = fp.length - 2 ∧
    (extrudeFootprint fp h).2.length = 4 * fp.length - 4 := by
  refine ⟨rfl, ?_, sideTriangles_length fp.length, ?_, ?_, ?_⟩
  · simp [extrudeFootprint]
    omega
  · simp [topCapTriangles]
  · simp [bottomCapTriangles]
  · simp only [extrudeFootprint, List.length_append,
      sideTriangles_length, topCapTriangles, bottomCapTriangles,
      List.length_map, List.length_range]
    omega

/-- Witness for C6 at the spec scenario: the 4-point square extruded to
height 5 has 8 vertices and 8 + 2 + 2 = 12 triangles. -/
theorem extrude_prism_counts_witness :
    (extrudeFootprint [(0, 0), (10, 0), (10, 10), (0, 10)] 5).1 =
      List.map (fun p => (p.1, p.2, (0 : ℚ)))
          [(0, 0), (10, 0), (10, 10), (0, 10)] ++
        List.map (fun p => (p.1, p.2, (5 : ℚ)))
          [(0, 0), (10, 0), (10, 10), (0, 10)] ∧
    (extrudeFootprint [(0, 0), (10, 0), (10, 10), (0, 10)] 5).1.length =
      2 * 4 ∧
    (sideTriangles 4).length = 2 * 4 ∧
    (topCapTriangles 4).length = 4 - 2 ∧
    (bottomCapTriangles 4).length = 4 - 2 ∧
    (extrudeFootprint [(0, 0), (10, 0), (10, 10), (0, 10)] 5).2.length =
      4 * 4 - 4 :=
  extrude_prism_counts [(0, 0), (10, 0), (10, 10), (0, 10)] 5 (by decide)

theorem writeFlatbushIndex_eq (bs : List Building) (h : bs ≠ []) :
    writeFlatbushIndex bs =
      some (⟨bs.length, bs.map (fun b => bbox2D b.footprint), true⟩,
        bs.map (fun b => b.id)) := by
  have hnz : bs.length ≠ 0 := by
    intro hc
    exact h (List.length_eq_zero.mp hc)
  rw [writeFlatbushIndex, flatbushNew, if_neg hnz]
  simp only [fold_add_boxes, List.nil_append]
  rw [flatbushFinish]
  simp

/-- C8. A run that extracts zero buildings from all input files terminates
with a non-zero exit code and writes no index: with no input files the driver
exits 1 explicitly, and with input files but a zero building total the
Flatbush constructor throws and the process dies non-zero. An individual
zero-yield file is a soft per-file condition: the loop continues, every file
contributes to the concatenated total, and a batch with at least one building
overall completes with exit code 0 and a written index. -/
theorem run_zero_total_nonzero_exit (files : List String)
    (extractOf : String → List Building) :
    ((files.map extractOf).flatten = [] →
      (extractJsMain files extractOf).exitCode ≠ 0 ∧
      (extractJsMain files extractOf).wroteIndex = false) ∧
    (extractJsMain files extractOf).totalBuildings =
      ((files.map extractOf).flatten).length ∧
    ((files.map extractOf).flatten ≠ [] →
      (extractJsMain files extractOf).exitCode = 0 ∧
      (extractJsMain files extractOf).wroteIndex = true) := by
  cases files with
  | nil =>
      refine ⟨fun _ => ⟨by simp [extractJsMain], by simp [extractJsMain]⟩,
        by simp [extractJsMain], fun hne => ?_⟩
      simp at hne
  | cons f fs =>
      by_cases hall : ((f :: fs).map extractOf).flatten = []
      · have hrun : extractJsMain (f :: fs) extractOf = ⟨1, 0, false⟩ := by
          rw [extractJsMain, if_neg (by simp), hall]
          rfl
        rw [hrun, hall]
        exact ⟨fun _ => ⟨by decide, rfl⟩, rfl, fun hne => absurd rfl hne⟩
      · have hrun : extractJsMain (f :: fs) extractOf =
            ⟨0, (((f :: fs).map extractOf).flatten).length, true⟩ := by
          rw [extractJsMain, if_neg (by simp),
            writeFlatbushIndex_eq _ hall]
        rw [hrun]
        exact ⟨fun hc => absurd hc hall, rfl, fun _ => ⟨rfl, rfl⟩⟩

/-- Witness for C8: a batch of one zero-yield file exits non-zero with no
index written, while a batch whose first file yields nothing and whose
second yields one building counts that building and completes with exit
code 0 and a written index. -/
theorem run_zero_total_nonzero_exit_witness :
    ((extractJsMain ["a.gml"] (fun _ => [])).exitCode ≠ 0 ∧
      (extractJsMain ["a.gml"] (fun _ => [])).wroteIndex = false) ∧
    (extractJsMain ["a.gml", "b.gml"] softExtractOf).totalBuildings =
      ((["a.gml", "b.gml"].map softExtractOf).flatten).length ∧
    ((extractJsMain ["a.gml", "b.gml"] softExtractOf).exitCode = 0 ∧
      (extractJsMain ["a.gml", "b.gml"] softExtractOf).wroteIndex = true) :=
  ⟨(run_zero_total_nonzero_exit ["a.gml"] (fun _ => [])).1 rfl,
   (run_zero_total_nonzero_exit ["a.gml", "b.gml"] softExtractOf).2.1,
   (run_zero_total_nonzero_exit ["a.gml", "b.gml"] softExtractOf).2.2
     (by decide)⟩

theorem vadd_vsub_cancel (c p : V3) : vadd c (vsub p c) = p := by
  obtain ⟨p1, p2, p3⟩ := p
  obtain ⟨c1, c2, c3⟩ := c
  simp only [vadd, vsub, Prod.mk.injEq]
  refine ⟨by ring, by ring, by ring⟩

/-- C9. The container writer creates exactly one node and one centered buffer
per building with a mesh, in order; a building lacking mesh data contributes
nothing; node k carries mesh index k and, as translation, the centroid of the
positions of the k-th with-mesh building; and adding the translation back to
every stored position recovers the original position buffer exactly. -/
theorem glb_centroid_translation (bs : List Building) :
    (writeGLBNodes bs).1.length = (buildingsWithMeshes bs).length ∧
    (writeGLBNodes bs).2.length = (buildingsWithMeshes bs).length ∧
    (∀ b ∈ bs, b.mesh = none → ∀ m, (b, m) ∉ buildingsWithMeshes bs) ∧
    ∀ (k : Nat) (bm : Building × MeshBuffer),
      (buildingsWithMeshes bs)[k]? = some bm →
      (writeGLBNodes bs).1[k]? = some ⟨k, centroid bm.2.positions⟩ ∧
      (writeGLBNodes bs).2[k]? =
        some (bm.2.positions.map (fun p => vsub p (centroid bm.2.positions))) ∧
      (bm.2.positions.map (fun p => vsub p (centroid bm.2.positions))).map
          (fun p => vadd (centroid bm.2.positions) p) = bm.2.positions := by
  refine ⟨by simp [writeGLBNodes], by simp [writeGLBNodes], ?_, ?_⟩
  · intro b hb hnone m hmem
    simp only [buildingsWithMeshes, List.mem_filterMap,
      Option.map_eq_some'] at hmem
    obtain ⟨a, ha, m', hm', heq⟩ := hmem
    rw [Prod.mk.injEq] at heq
    obtain ⟨rfl, rfl⟩ := heq
    rw [hnone] at hm'
    exact Option.noConfusion hm'
  · intro k bm hk
    refine ⟨?_, ?_, ?_⟩
    · simp only [writeGLBNodes, List.getElem?_map, List.getElem?_enum, hk]
      rfl
    · simp only [writeGLBNodes, List.getElem?_map, hk]
      rfl
    · rw [List.map_map]
      have hcomp : ((fun p => vadd (centroid bm.2.positions) p) ∘
          fun p => vsub p (centroid bm.2.positions)) = id :=
        funext (fun p => vadd_vsub_cancel (centroid bm.2.positions) p)
      rw [hcomp, List.map_id]

/-- Witness for C9: the meshless building contributes no entry, and node 0 of
a two-building run carries mesh index 0, the centroid translation, and the
exactly recoverable position buffer. -/
theorem glb_centroid_translation_witness :
    (bldgN, meshM) ∉ buildingsWithMeshes [bldgM, bldgN] ∧
    ((writeGLBNodes [bldgM, bldgN]).1[0]? =
        some ⟨0, centroid meshM.positions⟩ ∧
      (writeGLBNodes [bldgM, bldgN]).2[0]? =
        some (meshM.positions.map
          (fun p => vsub p (centroid meshM.positions))) ∧
      (meshM.positions.map (fun p => vsub p (centroid meshM.positions))).map
          (fun p => vadd (centroid meshM.positions) p) = meshM.positions) :=
  ⟨(glb_centroid_translation [bldgM, bldgN]).2.2.1 bldgN (by decide) rfl meshM,
   (glb_centroid_translation [bldgM, bldgN]).2.2.2 0 (bldgM, meshM)
     (by decide)⟩
